import Mathlib

/-
  Verification of the loan-ledger engine of the MoneyLanding repository.

  Shallow embedding of `src/context/TransactionContext.tsx` (the extended
  version exposing `calculateEarlyPayoff` / `completeTransaction`), of the
  EMI computation in `src/components/transactions/TransactionForm.tsx`, and
  of the payment-submission validation in the `TransactionDetail` component.

  Numbers are modelled as rationals, dates as integer epoch milliseconds
  (JavaScript `Date.getTime()`), and optional values as `Option`.
-/

namespace MoneyLanding

/-- Lifecycle status of a loan transaction (`TransactionStatus` in `types/index`). -/
inductive TransactionStatus where
  | active
  | partially_paid
  | completed
  | overdue
deriving DecidableEq, Repr

/-- Kind of an entry in the append-only payment log. -/
inductive PaymentType where
  | payment
  | additional_borrowing
deriving DecidableEq, Repr

/-- A loan transaction record (`Transaction` in `types/index`).
Dates are epoch milliseconds; amounts and rates are rationals. -/
structure Transaction where
  id : String
  lenderId : String
  borrowerId : String
  borrowerUsername : String
  borrowerName : String
  borrowerFatherName : String
  address : String
  village : String
  phone : String
  amount : ℚ
  interestRate : ℚ
  duration : ℚ
  startDate : ℤ
  endDate : ℤ
  status : TransactionStatus
  remainingBalance : ℚ
  initialAmount : ℚ
  monthlyEmi : ℚ
  totalPayable : ℚ
  totalInterest : ℚ
deriving DecidableEq, Repr

/-- An entry of the payment/borrowing event log (`PaymentEntry` in `types/index`). -/
structure PaymentEntry where
  id : String
  transactionId : String
  amount : ℚ
  date : ℤ
  type : PaymentType
  notes : Option String
  interestRate : Option ℚ
deriving DecidableEq, Repr

/-- The in-memory collections held by the `TransactionProvider`. -/
structure LedgerState where
  transactions : List Transaction
  payments : List PaymentEntry
deriving DecidableEq, Repr

/-- Milliseconds in the 30-day "month" used by the source: `1000 * 60 * 60 * 24 * 30`. -/
def msPerMonth : ℚ := 1000 * 60 * 60 * 24 * 30

/-- `Math.ceil(delta / (1000 * 60 * 60 * 24 * 30))` for a millisecond difference. -/
def ceilMonths (delta : ℤ) : ℤ :=
  ⌈(delta : ℚ) / msPerMonth⌉

/-- JavaScript `x || d` applied to an optional number: both `undefined`
and `0` are falsy, so both fall back to the default `d`. -/
def jsOr (x : Option ℚ) (d : ℚ) : ℚ :=
  match x with
  | none => d
  | some v => if v = 0 then d else v

/-- The payload assembled by the transaction form, i.e. the TypeScript
`Omit<Transaction, 'id' | 'status' | 'remainingBalance'>` argument of
`addTransaction`. -/
structure TransactionInput where
  lenderId : String
  borrowerId : String
  borrowerUsername : String
  borrowerName : String
  borrowerFatherName : String
  address : String
  village : String
  phone : String
  amount : ℚ
  interestRate : ℚ
  duration : ℚ
  startDate : ℤ
  endDate : ℤ
  initialAmount : ℚ
  monthlyEmi : ℚ
  totalPayable : ℚ
  totalInterest : ℚ
deriving DecidableEq, Repr

/-- The EMI effect of `TransactionForm`: for a positive duration it returns
`(emi, totalPayable, totalInterest)` with
`totalInterest = amount * (rate/100) * (duration/12)` (simple interest),
`totalPayable = amount + totalInterest`, `emi = totalPayable / duration`;
otherwise the displayed values stay `null`. -/
def formDerived (amount interestRate duration : ℚ) : Option (ℚ × ℚ × ℚ) :=
  if 0 < duration then
    let durationYears := duration / 12
    let totalInterestAmount := amount * (interestRate / 100) * durationYears
    let totalPayable := amount + totalInterestAmount
    let emi := totalPayable / duration
    some (emi, totalPayable, totalInterestAmount)
  else none

/-- `handleSubmit` of `TransactionForm`: builds the `addTransaction` payload,
filling the derived fields from the EMI effect (`calculatedEmi || 0` etc.). -/
def formSubmit (lenderId borrowerId borrowerUsername borrowerName borrowerFatherName
    address village phone : String) (amount interestRate duration : ℚ)
    (startDate endDate : ℤ) : TransactionInput :=
  let derived := formDerived amount interestRate duration
  { lenderId := lenderId
    borrowerId := borrowerId
    borrowerUsername := borrowerUsername
    borrowerName := borrowerName
    borrowerFatherName := borrowerFatherName
    address := address
    village := village
    phone := phone
    amount := amount
    interestRate := interestRate
    duration := duration
    startDate := startDate
    endDate := endDate
    initialAmount := amount
    monthlyEmi := (derived.map (fun d => d.1)).getD 0
    totalPayable := (derived.map (fun d => d.2.1)).getD 0
    totalInterest := (derived.map (fun d => d.2.2)).getD 0 }

/-- The new transaction record built inside `addTransaction`: the payload
plus `status: 'active'` and `remainingBalance: transaction.totalPayable`. -/
def newTransactionOf (inp : TransactionInput) (newId : String) : Transaction :=
  { id := newId
    lenderId := inp.lenderId
    borrowerId := inp.borrowerId
    borrowerUsername := inp.borrowerUsername
    borrowerName := inp.borrowerName
    borrowerFatherName := inp.borrowerFatherName
    address := inp.address
    village := inp.village
    phone := inp.phone
    amount := inp.amount
    interestRate := inp.interestRate
    duration := inp.duration
    startDate := inp.startDate
    endDate := inp.endDate
    status := TransactionStatus.active
    remainingBalance := inp.totalPayable
    initialAmount := inp.initialAmount
    monthlyEmi := inp.monthlyEmi
    totalPayable := inp.totalPayable
    totalInterest := inp.totalInterest }

/-- `addTransaction` of `TransactionContext`: appends the new transaction. -/
def addTransaction (s : LedgerState) (inp : TransactionInput) (newId : String) :
    LedgerState :=
  { s with transactions := s.transactions ++ [newTransactionOf inp newId] }

/-- The `Omit<PaymentEntry, 'id'>` argument of `addPayment`. -/
structure PaymentInput where
  transactionId : String
  amount : ℚ
  date : ℤ
  type : PaymentType
  notes : Option String
  interestRate : Option ℚ
deriving DecidableEq, Repr

/-- The per-transaction update applied inside `addPayment`: subtract the
amount and recompute the status (no clamping of a negative balance, and no
`overdue` branch; the status is kept when the balance stays at or above
`totalPayable`). -/
def payUpdate (tid : String) (amount : ℚ) (t : Transaction) : Transaction :=
  if t.id == tid then
    let newRemainingBalance := t.remainingBalance - amount
    let newStatus :=
      if newRemainingBalance ≤ 0 then TransactionStatus.completed
      else if newRemainingBalance < t.totalPayable then TransactionStatus.partially_paid
      else t.status
    { t with remainingBalance := newRemainingBalance, status := newStatus }
  else t

/-- The log entry built inside `addPayment` (the payload plus the fresh id). -/
def newPaymentEntryOf (p : PaymentInput) (newId : String) : PaymentEntry :=
  { id := newId
    transactionId := p.transactionId
    amount := p.amount
    date := p.date
    type := p.type
    notes := p.notes
    interestRate := p.interestRate }

/-- `addPayment` of `TransactionContext`: the entry is appended to the log
unconditionally; the transactions are updated only when a transaction with
the given id exists. -/
def addPayment (s : LedgerState) (p : PaymentInput) (newId : String) : LedgerState :=
  let payments := s.payments ++ [newPaymentEntryOf p newId]
  match s.transactions.find? (fun t => t.id == p.transactionId) with
  | some _ =>
      { transactions := s.transactions.map (payUpdate p.transactionId p.amount)
        payments := payments }
  | none => { s with payments := payments }

/-- The blended payable computed inside `addAdditionalBorrowing`:
`additionalPayable = amount + amount * (rate/100) * (monthsUntilEnd/12)` with
`monthsUntilEnd = max 0 (ceil((endDate - now)/30d))` and
`rate = interestRate || transaction.interestRate`. -/
def borrowPayable (t : Transaction) (amount : ℚ) (interestRate : Option ℚ)
    (now : ℤ) : ℚ :=
  let monthsUntilEnd : ℤ := max 0 (ceilMonths (t.endDate - now))
  let yearFraction : ℚ := (monthsUntilEnd : ℚ) / 12
  let rate := jsOr interestRate t.interestRate
  amount + amount * (rate / 100) * yearFraction

/-- The log entry built inside `addAdditionalBorrowing` (it records the raw
rate override, not the resolved rate). -/
def borrowEntryOf (tid : String) (amount : ℚ) (notes : Option String)
    (interestRate : Option ℚ) (now : ℤ) (newId : String) : PaymentEntry :=
  { id := newId
    transactionId := tid
    amount := amount
    date := now
    type := PaymentType.additional_borrowing
    notes := notes
    interestRate := interestRate }

/-- The per-transaction update applied inside `addAdditionalBorrowing`:
principal grows by the borrowed amount, `totalPayable` and the balance grow
by the blended payable, the status is forced back to `active`, and the
duration and end date are left untouched. -/
def borrowUpdate (tid : String) (amount additionalPayable : ℚ) (t : Transaction) :
    Transaction :=
  if t.id == tid then
    { t with
      remainingBalance := t.remainingBalance + additionalPayable
      amount := t.amount + amount
      totalPayable := t.totalPayable + additionalPayable
      status := TransactionStatus.active }
  else t

/-- `addAdditionalBorrowing` of `TransactionContext`: appends the borrowing
entry, then (if the transaction exists) blends
`additionalPayable = amount + amount * (rate/100) * (monthsUntilEnd/12)`
into the transaction, where `monthsUntilEnd = max 0 (ceil((endDate - now)/30d))`
and `rate = interestRate || transaction.interestRate`. -/
def addAdditionalBorrowing (s : LedgerState) (tid : String) (amount : ℚ)
    (notes : Option String) (interestRate : Option ℚ) (now : ℤ) (newId : String) :
    LedgerState :=
  let payments := s.payments ++ [borrowEntryOf tid amount notes interestRate now newId]
  match s.transactions.find? (fun t => t.id == tid) with
  | none => { s with payments := payments }
  | some t =>
      { transactions :=
          s.transactions.map (borrowUpdate tid amount (borrowPayable t amount interestRate now))
        payments := payments }

/-- `updateTransactionStatus` of `TransactionContext`. -/
def updateTransactionStatus (s : LedgerState) (tid : String)
    (status : TransactionStatus) : LedgerState :=
  { s with
    transactions := s.transactions.map
      (fun t => if t.id == tid then { t with status := status } else t) }

/-- Result record of `calculateEarlyPayoff`. -/
structure PayoffResult where
  remainingBalance : ℚ
  totalInterest : ℚ
  savedInterest : ℚ
deriving DecidableEq, Repr

/-- `calculateEarlyPayoff` of `TransactionContext` (read-only): interest for
the base principal over `min(ceil(elapsed/30d), duration)` months, plus
interest for each additional borrowing over its own elapsed months, with the
remaining balance and saved interest clamped at `0`. A missing transaction
yields all zeroes. -/
def calculateEarlyPayoff (s : LedgerState) (tid : String) (paymentDate : ℤ) :
    PayoffResult :=
  match s.transactions.find? (fun t => t.id == tid) with
  | none => { remainingBalance := 0, totalInterest := 0, savedInterest := 0 }
  | some transaction =>
      let completedMonths : ℤ := ceilMonths (paymentDate - transaction.startDate)
      let effectiveDuration : ℚ := min (completedMonths : ℚ) transaction.duration
      let yearFraction := effectiveDuration / 12
      let actualInterest :=
        transaction.initialAmount * (transaction.interestRate / 100) * yearFraction
      let additionalBorrowingEntries :=
        s.payments.filter
          (fun p => p.transactionId == tid && p.type == PaymentType.additional_borrowing)
      let additionalInterest :=
        additionalBorrowingEntries.foldl
          (fun acc b =>
            let borrowingMonths : ℤ := ceilMonths (paymentDate - b.date)
            let borrowingRate := jsOr b.interestRate transaction.interestRate
            acc + b.amount * (borrowingRate / 100) * ((borrowingMonths : ℚ) / 12))
          0
      let totalAdditionalAmount :=
        additionalBorrowingEntries.foldl (fun acc p => acc + p.amount) 0
      let totalActualInterest := actualInterest + additionalInterest
      let savedInterest := transaction.totalInterest - totalActualInterest
      let paymentsMade :=
        (s.payments.filter
            (fun p => p.transactionId == tid && p.type == PaymentType.payment)).foldl
          (fun acc p => acc + p.amount) 0
      let remainingBalance :=
        transaction.initialAmount + totalAdditionalAmount + totalActualInterest -
          paymentsMade
      { remainingBalance := max 0 remainingBalance
        totalInterest := totalActualInterest
        savedInterest := max 0 savedInterest }

/-- The per-transaction update applied inside `completeTransaction`. -/
def completeUpdate (tid : String) (t : Transaction) : Transaction :=
  if t.id == tid then
    { t with status := TransactionStatus.completed, remainingBalance := 0 }
  else t

/-- The synthetic final-payment entry built inside `completeTransaction`. -/
def finalPaymentEntryOf (tid : String) (amount : ℚ) (today : ℤ)
    (newId : String) : PaymentEntry :=
  { id := newId
    transactionId := tid
    amount := amount
    date := today
    type := PaymentType.payment
    notes := some ("Final payment - loan completed")
    interestRate := none }

/-- `completeTransaction` of `TransactionContext`: computes the early-payoff
balance as of `today`; if positive, appends a synthetic final payment of
that amount; then forces every matching transaction to `completed` with a
zero balance. -/
def completeTransaction (s : LedgerState) (tid : String) (today : ℤ)
    (newId : String) : LedgerState :=
  match s.transactions.find? (fun t => t.id == tid) with
  | none => s
  | some _ =>
      let payoff := (calculateEarlyPayoff s tid today).remainingBalance
      let payments :=
        if 0 < payoff then s.payments ++ [finalPaymentEntryOf tid payoff today newId]
        else s.payments
      { transactions := s.transactions.map (completeUpdate tid)
        payments := payments }

/-- The authenticated user as far as the ledger engine is concerned. -/
structure User where
  id : String
deriving DecidableEq, Repr

/-- Result record of `getUserStats`. -/
structure UserStats where
  totalLent : ℚ
  totalBorrowed : ℚ
  totalRepaid : ℚ
  upcomingDues : ℚ
  overdueLent : ℚ
  overdueBorrowed : ℚ
deriving DecidableEq, Repr

/-- `getUserStats` of `TransactionContext`. The lent/borrowed/overdue sums
are scoped to the current user; `totalRepaid` sums every `payment`-type
entry of the whole log. `today` and `thirtyDaysFromNow` stand for the two
dates the source builds with `new Date()` / `setDate(+30)`. -/
def getUserStats (currentUser : Option User) (s : LedgerState)
    (today thirtyDaysFromNow : ℤ) : UserStats :=
  match currentUser with
  | none =>
      { totalLent := 0, totalBorrowed := 0, totalRepaid := 0,
        upcomingDues := 0, overdueLent := 0, overdueBorrowed := 0 }
  | some u =>
      let lentTransactions := s.transactions.filter (fun t => t.lenderId == u.id)
      let borrowedTransactions := s.transactions.filter (fun t => t.borrowerId == u.id)
      let totalLent := lentTransactions.foldl (fun acc t => acc + t.amount) 0
      let totalBorrowed := borrowedTransactions.foldl (fun acc t => acc + t.amount) 0
      let totalRepaid :=
        (s.payments.filter (fun p => p.type == PaymentType.payment)).foldl
          (fun acc p => acc + p.amount) 0
      let upcomingDues :=
        (s.transactions.filter
            (fun t =>
              !(t.status == TransactionStatus.completed) &&
                decide (today ≤ t.endDate) && decide (t.endDate ≤ thirtyDaysFromNow))).foldl
          (fun acc t => acc + t.remainingBalance) 0
      let overdueLent :=
        (lentTransactions.filter (fun t => t.status == TransactionStatus.overdue)).foldl
          (fun acc t => acc + t.remainingBalance) 0
      let overdueBorrowed :=
        (borrowedTransactions.filter (fun t => t.status == TransactionStatus.overdue)).foldl
          (fun acc t => acc + t.remainingBalance) 0
      { totalLent := totalLent
        totalBorrowed := totalBorrowed
        totalRepaid := totalRepaid
        upcomingDues := upcomingDues
        overdueLent := overdueLent
        overdueBorrowed := overdueBorrowed }

/-- `handlePaymentSubmit` of the `TransactionDetail` component: the UI-side
validation in front of `addPayment`. A missing/non-numeric amount (`none`),
a non-positive amount, or an amount above the transaction's remaining
balance leaves the state untouched; otherwise the payment is recorded. -/
def handlePaymentSubmit (s : LedgerState) (t : Transaction)
    (paymentAmount : Option ℚ) (date : ℤ) (notes : Option String)
    (newId : String) : LedgerState :=
  match paymentAmount with
  | none => s
  | some a =>
      if a ≤ 0 then s
      else if t.remainingBalance < a then s
      else
        addPayment s
          { transactionId := t.id
            amount := a
            date := date
            type := PaymentType.payment
            notes := notes
            interestRate := none } newId

/-- One engine operation, as invocable through the context interface. -/
inductive Op where
  | create (lenderId borrowerId borrowerUsername borrowerName borrowerFatherName
      address village phone : String) (amount interestRate duration : ℚ)
      (startDate endDate : ℤ) (newId : String)
  | pay (tid : String) (amount : ℚ) (date : ℤ) (notes : Option String) (newId : String)
  | borrow (tid : String) (amount : ℚ) (notes : Option String)
      (interestRate : Option ℚ) (now : ℤ) (newId : String)
  | complete (tid : String) (today : ℤ) (newId : String)
  | setStatus (tid : String) (status : TransactionStatus)

/-- Interpretation of one operation on the ledger state. -/
def applyOp (s : LedgerState) : Op → LedgerState
  | Op.create l b bu bn bf ad vi ph amount rate dur sd ed nid =>
      addTransaction s (formSubmit l b bu bn bf ad vi ph amount rate dur sd ed) nid
  | Op.pay tid amount date notes nid =>
      addPayment s
        { transactionId := tid, amount := amount, date := date,
          type := PaymentType.payment, notes := notes, interestRate := none } nid
  | Op.borrow tid amount notes rate now nid =>
      addAdditionalBorrowing s tid amount notes rate now nid
  | Op.complete tid today nid => completeTransaction s tid today nid
  | Op.setStatus tid status => updateTransactionStatus s tid status

/-- Interpretation of a sequence of operations, first to last. -/
def applyOps (s : LedgerState) (ops : List Op) : LedgerState :=
  ops.foldl applyOp s

/-- Rounding to two decimal places, the way the currency formatters of the
UI display every amount. -/
def roundTo2 (q : ℚ) : ℚ :=
  (round (q * 100) : ℚ) / 100

/-- Modelled from the spec: the four-branch status transition rule of §4.2,
to be compared with the statuses the engine actually stores. -/
def specStatus (remainingBalance totalPayable : ℚ) (now endDate : ℤ) :
    TransactionStatus :=
  if remainingBalance ≤ 0 then TransactionStatus.completed
  else if remainingBalance < totalPayable then TransactionStatus.partially_paid
  else if endDate < now then TransactionStatus.overdue
  else TransactionStatus.active

/-- Modelled from the claim's wording for additional borrowing:
`additionalPayable = A + A * (R/100) * (ceil((endDate - now)/30 days)/12)`,
with no clamping of the month count at zero. -/
def specAdditionalPayable (amount rate : ℚ) (endDate now : ℤ) : ℚ :=
  amount + amount * (rate / 100) * ((ceilMonths (endDate - now) : ℚ) / 12)

/-- Modelled from the spec's words `totalInterest_at_creation_including_additions`:
the interest planned at creation for the base principal (the transaction's
stored `totalInterest`) plus, for each additional-borrowing entry, the
interest planned when that borrowing was added (months remaining to the
original end date, as in §4.4). -/
def specPlannedInterestWithAdditions (s : LedgerState) (tid : String) : ℚ :=
  match s.transactions.find? (fun t => t.id == tid) with
  | none => 0
  | some t =>
      t.totalInterest +
        (s.payments.filter
            (fun p => p.transactionId == tid &&
              p.type == PaymentType.additional_borrowing)).foldl
          (fun acc b =>
            acc + b.amount * (jsOr b.interestRate t.interestRate / 100) *
              (((max 0 (ceilMonths (t.endDate - b.date)) : ℤ) : ℚ) / 12))
          0

/-- The validation the UI layer performs before invoking each operation:
positive principal, nonnegative rate and positive duration at creation;
positive payments not exceeding the remaining balance of the target;
positive borrowing amounts with a nonnegative override rate. -/
def validOp (s : LedgerState) : Op → Prop
  | Op.create _ _ _ _ _ _ _ _ amount rate dur _ _ _ => 0 < amount ∧ 0 ≤ rate ∧ 0 < dur
  | Op.pay tid amount _ _ _ =>
      0 < amount ∧ ∀ t ∈ s.transactions, t.id = tid → amount ≤ t.remainingBalance
  | Op.borrow _ amount _ rate _ _ => 0 < amount ∧ ∀ r ∈ rate, 0 ≤ r
  | Op.complete _ _ _ => True
  | Op.setStatus _ _ => True

/-- The balance invariant (together with the nonnegativity of the stored
rates, which the induction needs): every transaction owes a nonnegative
amount. -/
def Inv (s : LedgerState) : Prop :=
  ∀ t ∈ s.transactions, 0 ≤ t.remainingBalance ∧ 0 ≤ t.interestRate

/-- A sequence of operations, each valid in the state it is applied to. -/
inductive ValidSeq : LedgerState → List Op → Prop where
  | nil (s : LedgerState) : ValidSeq s []
  | cons {s : LedgerState} {op : Op} {ops : List Op} :
      validOp s op → ValidSeq (applyOp s op) ops → ValidSeq s (op :: ops)

/-- A sample transaction record used by the concrete counterexamples:
principal 10000 at 12% per annum over 12 months starting at epoch 0
(so the end date is 12 source-months of 30 days later). -/
def sampleTx : Transaction :=
  { id := "1"
    lenderId := "lender"
    borrowerId := "borrower"
    borrowerUsername := "bu"
    borrowerName := "bn"
    borrowerFatherName := "bf"
    address := "addr"
    village := "vil"
    phone := "ph"
    amount := 10000
    interestRate := 12
    duration := 12
    startDate := 0
    endDate := 31104000000
    status := TransactionStatus.active
    remainingBalance := 11200
    initialAmount := 10000
    monthlyEmi := 11200 / 12
    totalPayable := 11200
    totalInterest := 1200 }

/-- The empty ledger. -/
def emptyLedger : LedgerState :=
  { transactions := [], payments := [] }

/-- A ledger holding just the sample transaction. -/
def sampleState : LedgerState :=
  { transactions := [sampleTx], payments := [] }

/-- A partially-paid variant of the sample transaction whose end date has
passed (end date at epoch 0). -/
def c2Tx : Transaction :=
  { sampleTx with
    remainingBalance := 50
    totalPayable := 100
    status := TransactionStatus.partially_paid
    endDate := 0 }

/-- Ledger holding only `c2Tx`. -/
def c2State : LedgerState :=
  { transactions := [c2Tx], payments := [] }

/-- One source-month (30 days) after epoch 0, in milliseconds. -/
def c2Now : ℤ := 2592000000

/-- The sample transaction with only 1 left to pay. -/
def c3Tx : Transaction :=
  { sampleTx with remainingBalance := 1 }

/-- Ledger holding only `c3Tx`. -/
def c3State : LedgerState :=
  { transactions := [c3Tx], payments := [] }

/-- The sample transaction with its end date already passed (at epoch 0). -/
def c5Tx : Transaction :=
  { sampleTx with endDate := 0 }

/-- Ledger holding only `c5Tx`. -/
def c5State : LedgerState :=
  { transactions := [c5Tx], payments := [] }

/-- Two source-months (60 days) after epoch 0, in milliseconds. -/
def c5Now : ℤ := 5184000000

/-- An additional borrowing of 5000 at an overriding 10% rate, taken at the
start of the sample loan. -/
def c6Entry : PaymentEntry :=
  { id := "b1"
    transactionId := "1"
    amount := 5000
    date := 0
    type := PaymentType.additional_borrowing
    notes := none
    interestRate := some 10 }

/-- The sample transaction after the 5000 top-up of `c6Entry` was blended in
(principal 15000, payable 16700; the stored `totalInterest` stays 1200). -/
def c6Tx : Transaction :=
  { sampleTx with
    amount := 15000
    totalPayable := 16700
    remainingBalance := 16700 }

/-- Ledger holding `c6Tx` plus its borrowing entry. -/
def c6State : LedgerState :=
  { transactions := [c6Tx], payments := [c6Entry] }

/-- Six source-months (180 days) after epoch 0, in milliseconds. -/
def c6AsOf : ℤ := 15552000000

/-- A payment payload aimed at a transaction id that exists in no ledger
used by the tests. -/
def c4Input : PaymentInput :=
  { transactionId := "zzz"
    amount := 5
    date := 0
    type := PaymentType.payment
    notes := none
    interestRate := none }

/-- The total accrued interest `calculateEarlyPayoff` reports for a
transaction and a list of its additional-borrowing entries, written as a
closed-form sum: base-principal interest over
`min(ceil((asOf - startDate)/30d), duration)` months plus each borrowing's
interest over `ceil((asOf - borrowingDate)/30d)` months at its resolved
rate. -/
def actualInterestOf (t : Transaction) (borrowings : List PaymentEntry)
    (asOf : ℤ) : ℚ :=
  t.initialAmount * (t.interestRate / 100) *
      (min ((ceilMonths (asOf - t.startDate) : ℤ) : ℚ) t.duration / 12) +
    (borrowings.map
        (fun b =>
          b.amount * (jsOr b.interestRate t.interestRate / 100) *
            (((ceilMonths (asOf - b.date) : ℤ) : ℚ) / 12))).sum

/-- The additional-borrowing entries of one transaction, as filtered inside
`calculateEarlyPayoff`. -/
def borrowingsOf (s : LedgerState) (tid : String) : List PaymentEntry :=
  s.payments.filter
    (fun p => p.transactionId == tid && p.type == PaymentType.additional_borrowing)

/-- The payment-type entries of one transaction, as filtered inside
`calculateEarlyPayoff`. -/
def paymentsOf (s : LedgerState) (tid : String) : List PaymentEntry :=
  s.payments.filter
    (fun p => p.transactionId == tid && p.type == PaymentType.payment)

/-! ## Helper lemmas -/

theorem foldl_add_eq_add_sum {α : Type} (f : α → ℚ) (a : ℚ) (l : List α) :
    l.foldl (fun acc x => acc + f x) a = a + (l.map f).sum := by
  induction l generalizing a with
  | nil => simp
  | cons x xs ih => simp [ih, add_assoc]

theorem find?_map_id_preserving (f : Transaction → Transaction)
    (hf : ∀ t, (f t).id = t.id) (l : List Transaction) (tid : String) :
    (l.map f).find? (fun t => t.id == tid) = (l.find? (fun t => t.id == tid)).map f := by
  induction l with
  | nil => rfl
  | cons x xs ih =>
      simp only [List.map_cons, List.find?, hf x]
      cases hx : (x.id == tid) <;> simp [hx, ih]

theorem addPayment_found (s : LedgerState) (p : PaymentInput) (nid : String)
    (t : Transaction)
    (h : s.transactions.find? (fun u => u.id == p.transactionId) = some t) :
    addPayment s p nid =
      { transactions := s.transactions.map (payUpdate p.transactionId p.amount)
        payments := s.payments ++ [newPaymentEntryOf p nid] } := by
  unfold addPayment
  rw [h]

theorem addPayment_not_found (s : LedgerState) (p : PaymentInput) (nid : String)
    (h : s.transactions.find? (fun u => u.id == p.transactionId) = none) :
    addPayment s p nid =
      { s with payments := s.payments ++ [newPaymentEntryOf p nid] } := by
  unfold addPayment
  rw [h]

theorem addAdditionalBorrowing_found (s : LedgerState) (tid : String)
    (amount : ℚ) (notes : Option String) (rate : Option ℚ) (now : ℤ)
    (nid : String) (t : Transaction)
    (h : s.transactions.find? (fun u => u.id == tid) = some t) :
    addAdditionalBorrowing s tid amount notes rate now nid =
      { transactions :=
          s.transactions.map (borrowUpdate tid amount (borrowPayable t amount rate now))
        payments := s.payments ++ [borrowEntryOf tid amount notes rate now nid] } := by
  unfold addAdditionalBorrowing
  rw [h]

theorem addAdditionalBorrowing_not_found (s : LedgerState) (tid : String)
    (amount : ℚ) (notes : Option String) (rate : Option ℚ) (now : ℤ)
    (nid : String)
    (h : s.transactions.find? (fun u => u.id == tid) = none) :
    addAdditionalBorrowing s tid amount notes rate now nid =
      { s with payments := s.payments ++ [borrowEntryOf tid amount notes rate now nid] } := by
  unfold addAdditionalBorrowing
  rw [h]

theorem completeTransaction_found (s : LedgerState) (tid : String) (today : ℤ)
    (nid : String) (t : Transaction)
    (h : s.transactions.find? (fun u => u.id == tid) = some t) :
    completeTransaction s tid today nid =
      { transactions := s.transactions.map (completeUpdate tid)
        payments :=
          if 0 < (calculateEarlyPayoff s tid today).remainingBalance then
            s.payments ++
              [finalPaymentEntryOf tid
                (calculateEarlyPayoff s tid today).remainingBalance today nid]
          else s.payments } := by
  unfold completeTransaction
  rw [h]

theorem calculateEarlyPayoff_found (s : LedgerState) (tid : String) (asOf : ℤ)
    (t : Transaction)
    (h : s.transactions.find? (fun u => u.id == tid) = some t) :
    calculateEarlyPayoff s tid asOf =
      { remainingBalance :=
          max 0 (t.initialAmount + ((borrowingsOf s tid).map (fun p => p.amount)).sum +
            actualInterestOf t (borrowingsOf s tid) asOf -
            ((paymentsOf s tid).map (fun p => p.amount)).sum)
        totalInterest := actualInterestOf t (borrowingsOf s tid) asOf
        savedInterest :=
          max 0 (t.totalInterest - actualInterestOf t (borrowingsOf s tid) asOf) } := by
  unfold calculateEarlyPayoff
  rw [h]
  simp only [borrowingsOf, paymentsOf, actualInterestOf, foldl_add_eq_add_sum, zero_add]

theorem calculateEarlyPayoff_none (s : LedgerState) (tid : String) (asOf : ℤ)
    (h : s.transactions.find? (fun u => u.id == tid) = none) :
    calculateEarlyPayoff s tid asOf =
      { remainingBalance := 0, totalInterest := 0, savedInterest := 0 } := by
  unfold calculateEarlyPayoff
  rw [h]

theorem borrowing_beq_payment :
    (PaymentType.additional_borrowing == PaymentType.payment) = false := rfl

theorem payment_beq_borrowing :
    (PaymentType.payment == PaymentType.additional_borrowing) = false := rfl

theorem completeUpdate_id (tid : String) (u : Transaction) :
    (completeUpdate tid u).id = u.id := by
  unfold completeUpdate
  split <;> rfl

theorem completeUpdate_idem (tid : String) (u : Transaction) :
    completeUpdate tid (completeUpdate tid u) = completeUpdate tid u := by
  by_cases hid : (u.id == tid) = true <;> simp [completeUpdate, hid]

/-! ## C10: early payoff on a missing transaction -/

/-- C10: for every transaction id that identifies no transaction in the
collection, `calculateEarlyPayoff` returns all-zero figures rather than
signalling an error, so a non-existent loan is indistinguishable from a
fully settled one at this interface. -/
theorem earlyPayoff_missing_transaction_returns_zero (s : LedgerState)
    (tid : String) (asOf : ℤ)
    (h : s.transactions.find? (fun t => t.id == tid) = none) :
    calculateEarlyPayoff s tid asOf =
      { remainingBalance := 0, totalInterest := 0, savedInterest := 0 } := by
  unfold calculateEarlyPayoff
  rw [h]

theorem earlyPayoff_missing_transaction_returns_zero_witness :
    emptyLedger.transactions.find? (fun t => t.id == ("missing")) = none ∧
    calculateEarlyPayoff emptyLedger ("missing") 0 =
      { remainingBalance := 0, totalInterest := 0, savedInterest := 0 } :=
  ⟨rfl, earlyPayoff_missing_transaction_returns_zero emptyLedger ("missing") 0 rfl⟩

/-! ## C1: transaction creation -/

/-- C1: a transaction created through the form with principal `P > 0`,
annual rate `r ≥ 0` and duration `d > 0` months is appended with
`totalInterest = P * (r/100) * (d/12)`, `totalPayable = P + totalInterest`,
`monthlyEmi = totalPayable / d`, `remainingBalance` initialized to
`totalPayable` and status `active`; for `P = 10000`, `r = 12`, `d = 12`
this yields `totalInterest = 1200.00`, `totalPayable = 11200.00` and
`monthlyEmi = 933.33` (to two decimals, as the UI displays currency). -/
theorem creation_initializes_derived_fields
    (l b bu bn bf ad vi ph nid : String) (P r d : ℚ) (sd ed : ℤ) (s : LedgerState)
    (hP : 0 < P) (hr : 0 ≤ r) (hd : 0 < d) :
    (applyOp s (Op.create l b bu bn bf ad vi ph P r d sd ed nid)).transactions
        = s.transactions ++
            [newTransactionOf (formSubmit l b bu bn bf ad vi ph P r d sd ed) nid] ∧
    (newTransactionOf (formSubmit l b bu bn bf ad vi ph P r d sd ed) nid).totalInterest
        = P * (r / 100) * (d / 12) ∧
    (newTransactionOf (formSubmit l b bu bn bf ad vi ph P r d sd ed) nid).totalPayable
        = P + P * (r / 100) * (d / 12) ∧
    (newTransactionOf (formSubmit l b bu bn bf ad vi ph P r d sd ed) nid).monthlyEmi
        = (P + P * (r / 100) * (d / 12)) / d ∧
    (newTransactionOf (formSubmit l b bu bn bf ad vi ph P r d sd ed) nid).remainingBalance
        = (newTransactionOf (formSubmit l b bu bn bf ad vi ph P r d sd ed) nid).totalPayable ∧
    (newTransactionOf (formSubmit l b bu bn bf ad vi ph P r d sd ed) nid).status
        = TransactionStatus.active ∧
    (P = 10000 → r = 12 → d = 12 →
      (newTransactionOf (formSubmit l b bu bn bf ad vi ph P r d sd ed) nid).totalInterest
          = 1200 ∧
      (newTransactionOf (formSubmit l b bu bn bf ad vi ph P r d sd ed) nid).totalPayable
          = 11200 ∧
      roundTo2 (newTransactionOf (formSubmit l b bu bn bf ad vi ph P r d sd ed)
          nid).monthlyEmi = 93333 / 100) := by
  refine ⟨rfl, ?_, ?_, ?_, ?_, rfl, ?_⟩
  · simp [newTransactionOf, formSubmit, formDerived, hd]
  · simp [newTransactionOf, formSubmit, formDerived, hd]
  · simp [newTransactionOf, formSubmit, formDerived, hd]
  · simp [newTransactionOf, formSubmit, formDerived, hd]
  · rintro rfl rfl rfl
    refine ⟨by norm_num [newTransactionOf, formSubmit, formDerived],
      by norm_num [newTransactionOf, formSubmit, formDerived], ?_⟩
    norm_num [newTransactionOf, formSubmit, formDerived, roundTo2, round_eq]

theorem creation_initializes_derived_fields_witness :
    (0 : ℚ) < 10000 ∧ (0 : ℚ) ≤ 12 ∧ (0 : ℚ) < 12 ∧
    ((applyOp emptyLedger
          (Op.create ("l") ("b") ("bu") ("bn") ("bf") ("ad") ("vi") ("ph")
            10000 12 12 0 31104000000 ("t1"))).transactions
        = emptyLedger.transactions ++
            [newTransactionOf
              (formSubmit ("l") ("b") ("bu") ("bn") ("bf") ("ad") ("vi") ("ph")
                10000 12 12 0 31104000000) ("t1")] ∧
      (newTransactionOf
          (formSubmit ("l") ("b") ("bu") ("bn") ("bf") ("ad") ("vi") ("ph")
            10000 12 12 0 31104000000) ("t1")).totalInterest
        = 10000 * (12 / 100) * (12 / 12)) := by
  have h := creation_initializes_derived_fields ("l") ("b") ("bu") ("bn") ("bf")
    ("ad") ("vi") ("ph") ("t1") 10000 12 12 0 31104000000 emptyLedger
    (by norm_num) (by norm_num) (by norm_num)
  exact ⟨by norm_num, by norm_num, by norm_num, h.1, h.2.1⟩

/-! ## C8: totalRepaid is not scoped to the requesting user -/

/-- C8: `getUserStats().totalRepaid` equals the sum of the amounts of all
`payment`-type entries across the entire payment log, whichever user asks
for the stats (it is not scoped to the requesting user). -/
theorem userStats_totalRepaid_is_global (u : User) (s : LedgerState)
    (today thirtyDaysFromNow : ℤ) :
    (getUserStats (some u) s today thirtyDaysFromNow).totalRepaid
        = ((s.payments.filter (fun p => p.type == PaymentType.payment)).map
            (fun p => p.amount)).sum ∧
    (∀ u' : User, ∀ today' thirty' : ℤ,
      (getUserStats (some u') s today' thirty').totalRepaid
        = (getUserStats (some u) s today thirtyDaysFromNow).totalRepaid) := by
  constructor
  · simp [getUserStats, foldl_add_eq_add_sum]
  · intro u' td th
    simp [getUserStats, foldl_add_eq_add_sum]

/-! ## C9: a zero interest-rate override falls back to the loan's rate -/

/-- C9: an explicit interest-rate override of `0` is treated exactly like an
absent override (JavaScript `||` treats `0` as falsy): `addAdditionalBorrowing`
blends the same payable computed from the transaction's own rate, and
`calculateEarlyPayoff` accrues the same interest for the entry. -/
theorem zero_rate_override_treated_as_absent (s : LedgerState) (tid : String)
    (A : ℚ) (notes : Option String) (now : ℤ) (nid : String) (r : ℚ) (asOf : ℤ) :
    jsOr (some 0) r = r ∧
    jsOr none r = r ∧
    (addAdditionalBorrowing s tid A notes (some 0) now nid).transactions
      = (addAdditionalBorrowing s tid A notes none now nid).transactions ∧
    calculateEarlyPayoff (addAdditionalBorrowing s tid A notes (some 0) now nid)
        tid asOf
      = calculateEarlyPayoff (addAdditionalBorrowing s tid A notes none now nid)
          tid asOf := by
  refine ⟨by simp [jsOr], rfl, ?_, ?_⟩
  · cases hf : s.transactions.find? (fun u => u.id == tid) with
    | none =>
        rw [addAdditionalBorrowing_not_found s tid A notes (some 0) now nid hf,
          addAdditionalBorrowing_not_found s tid A notes none now nid hf]
    | some t =>
        rw [addAdditionalBorrowing_found s tid A notes (some 0) now nid t hf,
          addAdditionalBorrowing_found s tid A notes none now nid t hf]
        simp [borrowPayable, jsOr]
  · cases hf : s.transactions.find? (fun u => u.id == tid) with
    | none =>
        rw [addAdditionalBorrowing_not_found s tid A notes (some 0) now nid hf,
          addAdditionalBorrowing_not_found s tid A notes none now nid hf,
          calculateEarlyPayoff_none
            { transactions := s.transactions,
              payments := s.payments ++ [borrowEntryOf tid A notes (some 0) now nid] }
            tid asOf hf,
          calculateEarlyPayoff_none
            { transactions := s.transactions,
              payments := s.payments ++ [borrowEntryOf tid A notes none now nid] }
            tid asOf hf]
    | some t =>
        rw [addAdditionalBorrowing_found s tid A notes (some 0) now nid t hf,
          addAdditionalBorrowing_found s tid A notes none now nid t hf]
        have hpay : borrowPayable t A (some 0) now = borrowPayable t A none now := by
          simp [borrowPayable, jsOr]
        rw [hpay]
        have hid : ∀ u, (borrowUpdate tid A (borrowPayable t A none now) u).id = u.id := by
          intro u
          unfold borrowUpdate
          split <;> rfl
        have hfind :
            (s.transactions.map (borrowUpdate tid A (borrowPayable t A none now))).find?
                (fun u => u.id == tid)
              = some (borrowUpdate tid A (borrowPayable t A none now) t) := by
          rw [find?_map_id_preserving _ hid s.transactions tid, hf]
          rfl
        rw [calculateEarlyPayoff_found _ tid asOf _ hfind,
          calculateEarlyPayoff_found _ tid asOf _ hfind]
        simp [borrowingsOf, paymentsOf, List.filter_append, borrowEntryOf,
          actualInterestOf, jsOr, borrowing_beq_payment]

/-! ## C2: status after payment and borrowing events -/

/-- C2 counterexample: an additional borrowing on a partially-paid
transaction (balance 50 of 100 payable, end date passed) leaves the stored
status `active`, while the spec's four-branch rule yields `partially_paid`
because the new balance (60) is still below the new total payable (110). -/
theorem status_rule_counterexample :
    ((applyOp c2State (Op.borrow ("1") 10 none (some 5) c2Now ("p1"))).transactions.map
        (fun t => t.status))
      ≠ ((applyOp c2State (Op.borrow ("1") 10 none (some 5) c2Now ("p1"))).transactions.map
        (fun t => specStatus t.remainingBalance t.totalPayable c2Now t.endDate)) := by
  norm_num [applyOp, addAdditionalBorrowing, c2State, c2Tx, c2Now, sampleTx, borrowUpdate,
    borrowPayable, borrowEntryOf, jsOr, ceilMonths, msPerMonth, specStatus, List.find?,
    Int.ceil_neg, Int.floor_one, max_def]
  decide

/-- C2 (amended): after a payment on an existing transaction the engine
applies only a three-branch rule — balance at or below zero gives
`completed` (the negative balance is stored unclamped), a balance below
`totalPayable` gives `partially_paid`, and otherwise the previous status is
kept (the payment path never produces `overdue`); after an additional
borrowing the status is always forced to `active`. A payment of exactly the
remaining balance still yields `completed` with balance 0. -/
theorem status_after_events_amended (s : LedgerState) (tid : String) (a A : ℚ)
    (dt now : ℤ) (pnotes bnotes : Option String) (nid bnid : String)
    (rate : Option ℚ) (t : Transaction)
    (h : s.transactions.find? (fun u => u.id == tid) = some t) :
    (addPayment s
        { transactionId := tid, amount := a, date := dt,
          type := PaymentType.payment, notes := pnotes, interestRate := none }
        nid).transactions
      = s.transactions.map (payUpdate tid a) ∧
    (payUpdate tid a t).remainingBalance = t.remainingBalance - a ∧
    (payUpdate tid a t).status =
      (if t.remainingBalance - a ≤ 0 then TransactionStatus.completed
       else if t.remainingBalance - a < t.totalPayable then
         TransactionStatus.partially_paid
       else t.status) ∧
    (a = t.remainingBalance →
      (payUpdate tid a t).status = TransactionStatus.completed ∧
      (payUpdate tid a t).remainingBalance = 0) ∧
    (addAdditionalBorrowing s tid A bnotes rate now bnid).transactions
      = s.transactions.map (borrowUpdate tid A (borrowPayable t A rate now)) ∧
    (borrowUpdate tid A (borrowPayable t A rate now) t).status
      = TransactionStatus.active := by
  have hbid : (t.id == tid) = true := by simpa using List.find?_some h
  refine ⟨?_, ?_, ?_, ?_, ?_, ?_⟩
  · rw [addPayment_found s _ nid t h]
  · simp [payUpdate, hbid]
  · simp [payUpdate, hbid]
  · intro ha
    subst ha
    norm_num [payUpdate, hbid]
  · rw [addAdditionalBorrowing_found s tid A bnotes rate now bnid t h]
  · simp [borrowUpdate, hbid]

theorem status_after_events_amended_witness :
    sampleState.transactions.find? (fun u => u.id == ("1")) = some sampleTx ∧
    (payUpdate ("1") 11200 sampleTx).status = TransactionStatus.completed ∧
    (payUpdate ("1") 11200 sampleTx).remainingBalance = 0 := by
  have h : sampleState.transactions.find? (fun u => u.id == ("1")) = some sampleTx := rfl
  have hmain := status_after_events_amended sampleState ("1") 11200 0 0 0 none none
    ("p") ("b") none sampleTx h
  have hx := hmain.2.2.2.1 rfl
  exact ⟨h, hx.1, hx.2⟩

/-! ## C3: nonnegativity of the remaining balance -/

/-- C3 counterexample: the engine-level `addPayment` subtracts any amount
with no guard, so paying 2 against a remaining balance of 1 stores a
balance of -1. -/
theorem balance_nonnegative_counterexample :
    ((applyOp c3State (Op.pay ("1") 2 0 none ("p"))).transactions.map
      (fun t => t.remainingBalance)) = [-1] := by
  norm_num [applyOp, addPayment, c3State, c3Tx, sampleTx, payUpdate, newPaymentEntryOf,
    List.find?]

theorem mem_of_find?_beq {l : List Transaction} {tid : String} {t : Transaction}
    (h : l.find? (fun u => u.id == tid) = some t) : t ∈ l := by
  induction l with
  | nil => simp at h
  | cons x xs ih =>
      simp only [List.find?] at h
      cases hx : (x.id == tid) with
      | true =>
          rw [hx] at h
          simp only [Option.some.injEq] at h
          subst h
          exact List.mem_cons_self x xs
      | false =>
          rw [hx] at h
          exact List.mem_cons_of_mem x (ih h)

theorem inv_applyOp {s : LedgerState} {op : Op} (hs : Inv s) (hop : validOp s op) :
    Inv (applyOp s op) := by
  cases op with
  | create l b bu bn bf ad vi ph amount rate dur sd ed nid =>
      obtain ⟨hP, hr, hd⟩ := hop
      intro t ht
      simp only [applyOp, addTransaction, List.mem_append, List.mem_singleton] at ht
      rcases ht with ht | rfl
      · exact hs t ht
      · constructor
        · have h1 : (0 : ℚ) ≤ amount * (rate / 100) * (dur / 12) :=
            mul_nonneg (mul_nonneg hP.le (div_nonneg hr (by norm_num)))
              (div_nonneg hd.le (by norm_num))
          simp only [newTransactionOf, formSubmit, formDerived, if_pos hd,
            Option.map_some', Option.getD_some]
          linarith
        · simpa [newTransactionOf, formSubmit] using hr
  | pay tid amount date notes nid =>
      obtain ⟨hpos, hle⟩ := hop
      intro t ht
      simp only [applyOp] at ht
      cases hf : s.transactions.find? (fun u => u.id == tid) with
      | none =>
          rw [addPayment_not_found _ _ _ hf] at ht
          exact hs t ht
      | some t0 =>
          rw [addPayment_found _ _ _ t0 hf] at ht
          simp only [List.mem_map] at ht
          obtain ⟨u, hu, rfl⟩ := ht
          have hu' := hs u hu
          by_cases hid : (u.id == tid) = true
          · have hid' : u.id = tid := by simpa using hid
            have hle' := hle u hu hid'
            constructor
            · simp only [payUpdate, hid, if_true]
              linarith [hu'.1]
            · simpa [payUpdate, hid] using hu'.2
          · simpa [payUpdate, hid] using hu'
  | borrow tid amount notes rate now nid =>
      obtain ⟨hpos, hrate⟩ := hop
      intro t ht
      simp only [applyOp] at ht
      cases hf : s.transactions.find? (fun u => u.id == tid) with
      | none =>
          rw [addAdditionalBorrowing_not_found _ _ _ _ _ _ _ hf] at ht
          exact hs t ht
      | some t0 =>
          rw [addAdditionalBorrowing_found _ _ _ _ _ _ _ t0 hf] at ht
          simp only [List.mem_map] at ht
          obtain ⟨u, hu, rfl⟩ := ht
          have hu' := hs u hu
          have ht0' := hs t0 (mem_of_find?_beq hf)
          have hr0 : 0 ≤ jsOr rate t0.interestRate := by
            cases rate with
            | none => exact ht0'.2
            | some rr =>
                by_cases h0 : rr = 0
                · simpa [jsOr, h0] using ht0'.2
                · simpa [jsOr, h0] using hrate rr (by simp)
          have hyf : (0 : ℚ) ≤ ((max 0 (ceilMonths (t0.endDate - now)) : ℤ) : ℚ) / 12 := by
            apply div_nonneg _ (by norm_num)
            exact_mod_cast le_max_left 0 (ceilMonths (t0.endDate - now))
          have hpay : 0 ≤ borrowPayable t0 amount rate now := by
            have h2 : (0 : ℚ) ≤ amount * (jsOr rate t0.interestRate / 100) *
                (((max 0 (ceilMonths (t0.endDate - now)) : ℤ) : ℚ) / 12) :=
              mul_nonneg (mul_nonneg hpos.le (div_nonneg hr0 (by norm_num))) hyf
            unfold borrowPayable
            linarith
          by_cases hid : (u.id == tid) = true
          · constructor
            · simp only [borrowUpdate, hid, if_true]
              linarith [hu'.1, hpay]
            · simpa [borrowUpdate, hid] using hu'.2
          · simpa [borrowUpdate, hid] using hu'
  | complete tid today nid =>
      intro t ht
      simp only [applyOp] at ht
      cases hf : s.transactions.find? (fun u => u.id == tid) with
      | none =>
          unfold completeTransaction at ht
          rw [hf] at ht
          exact hs t ht
      | some t0 =>
          rw [completeTransaction_found _ _ _ _ t0 hf] at ht
          simp only [List.mem_map] at ht
          obtain ⟨u, hu, rfl⟩ := ht
          have hu' := hs u hu
          by_cases hid : (u.id == tid) = true
          · refine ⟨by simp [completeUpdate, hid], ?_⟩
            simpa [completeUpdate, hid] using hu'.2
          · simpa [completeUpdate, hid] using hu'
  | setStatus tid st =>
      intro t ht
      simp only [applyOp, updateTransactionStatus, List.mem_map] at ht
      obtain ⟨u, hu, rfl⟩ := ht
      have hu' := hs u hu
      by_cases hid : (u.id == tid) = true
      · simpa [hid] using hu'
      · simpa [hid] using hu'

theorem inv_validSeq {s : LedgerState} {ops : List Op}
    (hops : ValidSeq s ops) : Inv s → Inv (applyOps s ops) := by
  induction hops with
  | nil s₀ => exact fun hs => hs
  | cons hop hrest ih => exact fun hs => ih (inv_applyOp hs hop)

/-- C3 (amended): the balance invariant `remainingBalance ≥ 0` (together
with nonnegativity of the stored rates) is preserved by every sequence of
engine operations, provided each operation passes the validation the UI
layer performs (payments positive and at most the target's remaining
balance, borrowings positive with a nonnegative override rate, creations
with positive principal, nonnegative rate and positive duration); the
unguarded engine `addPayment` itself can drive the balance negative. -/
theorem balance_nonnegative_amended (s : LedgerState) (ops : List Op)
    (hs : Inv s) (hops : ValidSeq s ops) : Inv (applyOps s ops) :=
  inv_validSeq hops hs

theorem balance_nonnegative_amended_witness :
    Inv (applyOps sampleState
      [Op.pay ("1") 11200 0 none ("p2"),
       Op.borrow ("1") 500 none (some 10) 0 ("p3")]) := by
  apply balance_nonnegative_amended
  · intro t ht
    simp only [sampleState, List.mem_singleton] at ht
    subst ht
    norm_num [sampleTx]
  · refine ValidSeq.cons ⟨by norm_num, ?_⟩ (ValidSeq.cons ⟨by norm_num, ?_⟩ (ValidSeq.nil _))
    · intro t ht hid
      simp only [sampleState, List.mem_singleton] at ht
      subst ht
      norm_num [sampleTx]
    · intro rr hrr
      simp only [Option.mem_def, Option.some.injEq] at hrr
      subst hrr
      norm_num

/-! ## C4: rejection of invalid payments -/

/-- C4 counterexample: the engine-level `addPayment` appends the payment
entry before looking the transaction up, so a payment against a
non-existent transaction id still grows the payment log (the claim says a
failed lookup leaves the log unchanged). -/
theorem payment_rejection_counterexample :
    (addPayment emptyLedger c4Input ("p1")).payments ≠ emptyLedger.payments := by
  simp [addPayment, emptyLedger, newPaymentEntryOf, c4Input, List.find?]

/-- C4 (amended): the engine-level `addPayment` performs no validation of
its own — it always appends the `PaymentEntry`, even when no transaction
matches the id (the transactions collection alone stays unchanged then).
The rejections live in the UI submit handler, which leaves the whole state
untouched for a missing/non-numeric amount, a non-positive amount, or an
amount above the transaction's remaining balance (a completed transaction
has balance 0, so any positive amount is rejected through the balance
check). -/
theorem payment_rejection_amended (s : LedgerState) (t : Transaction)
    (a : ℚ) (dt : ℤ) (notes : Option String) (nid : String) (p : PaymentInput) :
    (a ≤ 0 → handlePaymentSubmit s t (some a) dt notes nid = s) ∧
    (t.remainingBalance < a → handlePaymentSubmit s t (some a) dt notes nid = s) ∧
    handlePaymentSubmit s t none dt notes nid = s ∧
    (s.transactions.find? (fun u => u.id == p.transactionId) = none →
      (addPayment s p nid).transactions = s.transactions ∧
      (addPayment s p nid).payments = s.payments ++ [newPaymentEntryOf p nid]) := by
  refine ⟨?_, ?_, rfl, ?_⟩
  · intro ha
    simp [handlePaymentSubmit, ha]
  · intro ha
    by_cases h0 : a ≤ 0
    · simp [handlePaymentSubmit, h0]
    · simp [handlePaymentSubmit, h0, ha]
  · intro hf
    rw [addPayment_not_found s p nid hf]
    exact ⟨rfl, rfl⟩

theorem payment_rejection_amended_witness :
    ((-5 : ℚ) ≤ 0 ∧
      handlePaymentSubmit sampleState sampleTx (some (-5)) 0 none ("w") = sampleState) ∧
    (sampleTx.remainingBalance < 99999 ∧
      handlePaymentSubmit sampleState sampleTx (some 99999) 0 none ("w") = sampleState) ∧
    (emptyLedger.transactions.find? (fun u => u.id == c4Input.transactionId) = none ∧
      (addPayment emptyLedger c4Input ("w")).payments
        = emptyLedger.payments ++ [newPaymentEntryOf c4Input ("w")]) := by
  have h1 := payment_rejection_amended sampleState sampleTx (-5) 0 none ("w") c4Input
  have h2 := payment_rejection_amended sampleState sampleTx 99999 0 none ("w") c4Input
  have h3 := payment_rejection_amended emptyLedger sampleTx 1 0 none ("w") c4Input
  refine ⟨⟨by norm_num, h1.1 (by norm_num)⟩, ?_, ?_⟩
  · have hlt : sampleTx.remainingBalance < 99999 := by norm_num [sampleTx]
    exact ⟨hlt, h2.2.1 hlt⟩
  · have hf : emptyLedger.transactions.find? (fun u => u.id == c4Input.transactionId)
        = none := rfl
    exact ⟨hf, (h3.2.2.2 hf).2⟩

/-! ## C5: effect of an additional borrowing -/

/-- C5 counterexample: when the end date has already passed (here by two
source-months), the code clamps `monthsUntilEnd` at 0 and adds exactly the
borrowed 1000 to the balance (11200 → 12200), while the claim's formula
`A + A*(R/100)*(ceil((endDate - now)/30d)/12)` uses the negative month
count and would predict a balance of `11200 + 983.33...` instead. -/
theorem borrowing_effect_counterexample :
    ((addAdditionalBorrowing c5State ("1") 1000 none (some 10) c5Now
          ("p1")).transactions.map
        (fun t => t.remainingBalance)) = [12200] ∧
    (11200 : ℚ) + specAdditionalPayable 1000 10 0 c5Now ≠ 12200 := by
  constructor
  · norm_num [addAdditionalBorrowing, c5State, c5Tx, c5Now, sampleTx, borrowUpdate,
      borrowPayable, borrowEntryOf, jsOr, ceilMonths, msPerMonth, List.find?,
      Int.ceil_neg, Int.floor_one, max_def]
  · norm_num [specAdditionalPayable, c5Now, ceilMonths, msPerMonth, Int.ceil_neg,
      Int.floor_intCast, Int.floor_one]

/-- C5 (amended): for an additional borrowing of `A` on an existing
transaction, with the rate resolved as the override when that is nonzero
and the transaction's own rate otherwise, and with
`monthsUntilEnd = max(0, ceil((endDate - now)/30 days))`: the duration and
end date are unchanged, the principal grows by exactly `A`, `totalPayable`
and `remainingBalance` both grow by the same
`additionalPayable = A + A*(rate/100)*(monthsUntilEnd/12)`, and the status
becomes `active`. -/
theorem borrowing_effect_amended (s : LedgerState) (tid : String) (A : ℚ)
    (notes : Option String) (rate : Option ℚ) (now : ℤ) (nid : String)
    (t : Transaction)
    (h : s.transactions.find? (fun u => u.id == tid) = some t)
    (_hnc : t.status ≠ TransactionStatus.completed) :
    (addAdditionalBorrowing s tid A notes rate now nid).transactions
      = s.transactions.map (borrowUpdate tid A (borrowPayable t A rate now)) ∧
    borrowPayable t A rate now
      = A + A * (jsOr rate t.interestRate / 100) *
          (((max 0 (ceilMonths (t.endDate - now)) : ℤ) : ℚ) / 12) ∧
    (borrowUpdate tid A (borrowPayable t A rate now) t).duration = t.duration ∧
    (borrowUpdate tid A (borrowPayable t A rate now) t).endDate = t.endDate ∧
    (borrowUpdate tid A (borrowPayable t A rate now) t).amount = t.amount + A ∧
    (borrowUpdate tid A (borrowPayable t A rate now) t).totalPayable
      = t.totalPayable + borrowPayable t A rate now ∧
    (borrowUpdate tid A (borrowPayable t A rate now) t).remainingBalance
      = t.remainingBalance + borrowPayable t A rate now ∧
    (borrowUpdate tid A (borrowPayable t A rate now) t).status
      = TransactionStatus.active := by
  have hbid : (t.id == tid) = true := by simpa using List.find?_some h
  refine ⟨?_, rfl, ?_, ?_, ?_, ?_, ?_, ?_⟩
  · rw [addAdditionalBorrowing_found s tid A notes rate now nid t h]
  · simp [borrowUpdate, hbid]
  · simp [borrowUpdate, hbid]
  · simp [borrowUpdate, hbid]
  · simp [borrowUpdate, hbid]
  · simp [borrowUpdate, hbid]
  · simp [borrowUpdate, hbid]

theorem borrowing_effect_amended_witness :
    sampleState.transactions.find? (fun u => u.id == ("1")) = some sampleTx ∧
    sampleTx.status ≠ TransactionStatus.completed ∧
    (borrowUpdate ("1") 5000 (borrowPayable sampleTx 5000 (some 10) 0)
        sampleTx).remainingBalance
      = sampleTx.remainingBalance + borrowPayable sampleTx 5000 (some 10) 0 ∧
    (borrowUpdate ("1") 5000 (borrowPayable sampleTx 5000 (some 10) 0)
        sampleTx).status = TransactionStatus.active := by
  have h : sampleState.transactions.find? (fun u => u.id == ("1")) = some sampleTx := rfl
  have hnc : sampleTx.status ≠ TransactionStatus.completed := by
    simp [sampleTx]
  have hmain := borrowing_effect_amended sampleState ("1") 5000 none (some 10) 0
    ("b1") sampleTx h hnc
  exact ⟨h, hnc, hmain.2.2.2.2.2.2.1, hmain.2.2.2.2.2.2.2⟩

/-! ## C6: early payoff figures -/

/-- C6 counterexample: `savedInterest` subtracts the accrued interest from
the transaction's stored `totalInterest`, which additional borrowings never
update. On the sample loan with a 5000 top-up, after six months the code
reports `savedInterest = 350` (from the stored 1200), while the claim's
`totalInterest_at_creation_including_additions` (1200 + 500 = 1700) would
give 850. -/
theorem earlyPayoff_saved_counterexample :
    (calculateEarlyPayoff c6State ("1") c6AsOf).savedInterest ≠
      max 0 (specPlannedInterestWithAdditions c6State ("1") -
        (calculateEarlyPayoff c6State ("1") c6AsOf).totalInterest) := by
  norm_num [calculateEarlyPayoff, specPlannedInterestWithAdditions, c6State, c6Tx,
    c6Entry, c6AsOf, sampleTx, jsOr, ceilMonths, msPerMonth, List.find?, List.filter]

/-- C6 (amended): `calculateEarlyPayoff` is a pure read-only function; for an
existing transaction it returns `totalInterest` equal to the base
principal's interest over `min(ceil((asOf - startDate)/30d), duration)`
months plus each additional borrowing's interest over its own elapsed
months at its resolved rate; `savedInterest = max(0, totalInterest_stored -
totalActualInterest)` where `totalInterest_stored` is the transaction's
`totalInterest` field — set at creation from the base principal only and
never updated by additional borrowings — and is always ≥ 0; and
`remainingBalance = max(0, initialAmount + Σ additional principals +
totalActualInterest - Σ payments)`. -/
theorem earlyPayoff_formulas_amended (s : LedgerState) (tid : String)
    (asOf : ℤ) (t : Transaction)
    (h : s.transactions.find? (fun u => u.id == tid) = some t) :
    calculateEarlyPayoff s tid asOf =
      { remainingBalance :=
          max 0 (t.initialAmount + ((borrowingsOf s tid).map (fun p => p.amount)).sum +
            actualInterestOf t (borrowingsOf s tid) asOf -
            ((paymentsOf s tid).map (fun p => p.amount)).sum)
        totalInterest := actualInterestOf t (borrowingsOf s tid) asOf
        savedInterest :=
          max 0 (t.totalInterest - actualInterestOf t (borrowingsOf s tid) asOf) } ∧
    0 ≤ (calculateEarlyPayoff s tid asOf).savedInterest ∧
    0 ≤ (calculateEarlyPayoff s tid asOf).remainingBalance := by
  have hc := calculateEarlyPayoff_found s tid asOf t h
  refine ⟨hc, ?_, ?_⟩
  · rw [hc]
    exact le_max_left 0 _
  · rw [hc]
    exact le_max_left 0 _

theorem earlyPayoff_formulas_amended_witness :
    c6State.transactions.find? (fun u => u.id == ("1")) = some c6Tx ∧
    0 ≤ (calculateEarlyPayoff c6State ("1") c6AsOf).savedInterest ∧
    0 ≤ (calculateEarlyPayoff c6State ("1") c6AsOf).remainingBalance := by
  have h : c6State.transactions.find? (fun u => u.id == ("1")) = some c6Tx := rfl
  have hmain := earlyPayoff_formulas_amended c6State ("1") c6AsOf c6Tx h
  exact ⟨h, hmain.2.1, hmain.2.2⟩

/-! ## C7: idempotence of completeTransaction -/

theorem max_zero_settle (a b c d : ℚ) (h : 0 < max 0 (a + b + c - d)) :
    max 0 (a + b + c - (d + max 0 (a + b + c - d))) = 0 := by
  have ha : 0 < a + b + c - d := by
    by_contra hx
    push_neg at hx
    rw [max_eq_left hx] at h
    exact lt_irrefl 0 h
  rw [max_eq_right ha.le]
  have hz : a + b + c - (d + (a + b + c - d)) = 0 := by ring
  rw [hz]
  exact max_self 0

theorem max_zero_settle' (a b c d : ℚ) (h : ¬ 0 < max 0 (a + b + c - d)) :
    max 0 (a + b + c - d) = 0 := by
  have hx : a + b + c - d ≤ 0 := by
    by_contra hy
    push_neg at hy
    exact h (lt_of_lt_of_le hy (le_max_right 0 _))
  exact max_eq_left hx

/-- C7: `completeTransaction` invoked twice at the same as-of date on an
existing transaction is idempotent in effect: the first call appends a
synthetic final payment of the computed remaining balance when that balance
is positive (and nothing otherwise) and forces the transaction to
`completed` with balance 0; the early-payoff balance recomputed after the
first call is 0, so the second call appends no further entry and leaves the
whole state exactly as the first call left it. -/
theorem completeTransaction_idempotent (s : LedgerState) (tid : String)
    (today : ℤ) (nid1 nid2 : String) (t : Transaction)
    (h : s.transactions.find? (fun u => u.id == tid) = some t) :
    (0 < (calculateEarlyPayoff s tid today).remainingBalance →
      (completeTransaction s tid today nid1).payments
        = s.payments ++ [finalPaymentEntryOf tid
            (calculateEarlyPayoff s tid today).remainingBalance today nid1]) ∧
    ((calculateEarlyPayoff s tid today).remainingBalance ≤ 0 →
      (completeTransaction s tid today nid1).payments = s.payments) ∧
    (∀ u ∈ (completeTransaction s tid today nid1).transactions, u.id = tid →
      u.status = TransactionStatus.completed ∧ u.remainingBalance = 0) ∧
    (calculateEarlyPayoff (completeTransaction s tid today nid1) tid
        today).remainingBalance = 0 ∧
    completeTransaction (completeTransaction s tid today nid1) tid today nid2
      = completeTransaction s tid today nid1 := by
  have hbid : (t.id == tid) = true := by simpa using List.find?_some h
  have hc := completeTransaction_found s tid today nid1 t h
  have hcs := calculateEarlyPayoff_found s tid today t h
  have hfind1 : (completeTransaction s tid today nid1).transactions.find?
      (fun u => u.id == tid) = some (completeUpdate tid t) := by
    rw [hc]
    show (s.transactions.map (completeUpdate tid)).find? (fun u => u.id == tid) = _
    rw [find?_map_id_preserving (completeUpdate tid) (completeUpdate_id tid)
      s.transactions tid, h]
    rfl
  have hborrow1 : borrowingsOf (completeTransaction s tid today nid1) tid
      = borrowingsOf s tid := by
    rw [hc]
    by_cases h0 : 0 < (calculateEarlyPayoff s tid today).remainingBalance
    · simp [borrowingsOf, h0, List.filter_append, finalPaymentEntryOf,
        payment_beq_borrowing]
    · simp [borrowingsOf, h0]
  have hactual1 : actualInterestOf (completeUpdate tid t) (borrowingsOf s tid) today
      = actualInterestOf t (borrowingsOf s tid) today := by
    simp [completeUpdate, hbid, actualInterestOf]
  have hinit : (completeUpdate tid t).initialAmount = t.initialAmount := by
    simp [completeUpdate, hbid]
  have hR : (calculateEarlyPayoff s tid today).remainingBalance
      = max 0 (t.initialAmount + ((borrowingsOf s tid).map (fun p => p.amount)).sum +
          actualInterestOf t (borrowingsOf s tid) today -
          ((paymentsOf s tid).map (fun p => p.amount)).sum) := by
    rw [hcs]
  have hpm1pos : 0 < (calculateEarlyPayoff s tid today).remainingBalance →
      paymentsOf (completeTransaction s tid today nid1) tid
        = paymentsOf s tid ++ [finalPaymentEntryOf tid
            (calculateEarlyPayoff s tid today).remainingBalance today nid1] := by
    intro h0
    rw [hc]
    simp [paymentsOf, h0, List.filter_append, finalPaymentEntryOf]
  have hpm1nonpos : ¬ 0 < (calculateEarlyPayoff s tid today).remainingBalance →
      paymentsOf (completeTransaction s tid today nid1) tid = paymentsOf s tid := by
    intro h0
    rw [hc]
    simp [paymentsOf, h0]
  have hcs1 := calculateEarlyPayoff_found (completeTransaction s tid today nid1)
    tid today (completeUpdate tid t) hfind1
  have hRB1 : (calculateEarlyPayoff (completeTransaction s tid today nid1) tid
      today).remainingBalance
      = max 0 ((completeUpdate tid t).initialAmount +
          ((borrowingsOf (completeTransaction s tid today nid1) tid).map
            (fun p => p.amount)).sum +
          actualInterestOf (completeUpdate tid t)
            (borrowingsOf (completeTransaction s tid today nid1) tid) today -
          ((paymentsOf (completeTransaction s tid today nid1) tid).map
            (fun p => p.amount)).sum) := by
    rw [hcs1]
  have hzero : (calculateEarlyPayoff (completeTransaction s tid today nid1) tid
      today).remainingBalance = 0 := by
    rw [hRB1, hborrow1, hactual1, hinit]
    by_cases h0 : 0 < (calculateEarlyPayoff s tid today).remainingBalance
    · rw [hpm1pos h0]
      simp only [List.map_append, List.sum_append, List.map_cons, List.map_nil,
        List.sum_cons, List.sum_nil, finalPaymentEntryOf, add_zero]
      rw [hR] at h0 ⊢
      exact max_zero_settle _ _ _ _ h0
    · rw [hpm1nonpos h0]
      rw [hR] at h0
      exact max_zero_settle' _ _ _ _ h0
  refine ⟨?_, ?_, ?_, hzero, ?_⟩
  · intro h0
    rw [hc]
    show (if 0 < (calculateEarlyPayoff s tid today).remainingBalance
        then s.payments ++ [finalPaymentEntryOf tid
          (calculateEarlyPayoff s tid today).remainingBalance today nid1]
        else s.payments) = _
    rw [if_pos h0]
  · intro h0
    rw [hc]
    show (if 0 < (calculateEarlyPayoff s tid today).remainingBalance
        then s.payments ++ [finalPaymentEntryOf tid
          (calculateEarlyPayoff s tid today).remainingBalance today nid1]
        else s.payments) = s.payments
    rw [if_neg (not_lt.mpr h0)]
  · intro u hu hid
    rw [hc] at hu
    have hu' : u ∈ s.transactions.map (completeUpdate tid) := hu
    obtain ⟨v, hv, rfl⟩ := List.mem_map.mp hu'
    have hvid : (v.id == tid) = true := by
      rw [completeUpdate_id tid v] at hid
      exact beq_iff_eq.mpr hid
    constructor
    · simp [completeUpdate, hvid]
    · simp [completeUpdate, hvid]
  · have h2 := completeTransaction_found (completeTransaction s tid today nid1) tid
      today nid2 (completeUpdate tid t) hfind1
    have hmapidem : (completeTransaction s tid today nid1).transactions.map
        (completeUpdate tid) = (completeTransaction s tid today nid1).transactions := by
      rw [hc]
      show (s.transactions.map (completeUpdate tid)).map (completeUpdate tid)
          = s.transactions.map (completeUpdate tid)
      rw [List.map_map]
      have hcomp : completeUpdate tid ∘ completeUpdate tid = completeUpdate tid :=
        funext (completeUpdate_idem tid)
      rw [hcomp]
    rw [h2, hzero]
    rw [if_neg (lt_irrefl 0)]
    rw [hmapidem]

theorem completeTransaction_idempotent_witness :
    sampleState.transactions.find? (fun u => u.id == ("1")) = some sampleTx ∧
    (calculateEarlyPayoff (completeTransaction sampleState ("1") 0 ("f1")) ("1")
        0).remainingBalance = 0 ∧
    completeTransaction (completeTransaction sampleState ("1") 0 ("f1")) ("1") 0 ("f2")
      = completeTransaction sampleState ("1") 0 ("f1") := by
  have h : sampleState.transactions.find? (fun u => u.id == ("1")) = some sampleTx := rfl
  have hmain := completeTransaction_idempotent sampleState ("1") 0 ("f1") ("f2")
    sampleTx h
  exact ⟨h, hmain.2.2.2.1, hmain.2.2.2.2⟩

end MoneyLanding
